import Mathlib

/-!
Shallow embedding of the cursor blink manager
(src/crates/editor/src/blink_manager.rs).

The manager is a single-threaded, epoch-versioned state machine. Its
mutable fields are blink_epoch, blinking_paused and visible; the blink
interval is fixed at construction. Every decision point reads the enabled
setting and the focus state fresh from the surrounding context; we model
that context as an Env value passed at each call. Scheduling a timer is
modelled by emitting a Timer record (delay and the callback with its
captured epoch) into an Effects value, together with the number of
observer notifications (cx.notify calls) the operation performed.
-/

/-- Context values read fresh at a decision point: the result of the
is_enabled settings predicate and of focus_handle.is_focused. -/
structure Env where
  is_enabled : Bool
  is_focused : Bool
deriving DecidableEq, Repr

/-- The state of the BlinkManager struct. Durations are modelled as Nat
milliseconds; blink_epoch is usize, modelled as Nat (overflow is
unreachable in practice and usize arithmetic here is plain increment). -/
structure BlinkManager where
  blink_interval : Nat
  blink_epoch : Nat
  blinking_paused : Bool
  visible : Bool
deriving DecidableEq, Repr

/-- A callback captured by a scheduled timer: either the resume callback
spawned by pause_blinking or the blink callback spawned by blink_cursors,
each carrying the epoch value it captured. -/
inductive Callback where
  | resume (epoch : Nat)
  | blink (epoch : Nat)
deriving DecidableEq, Repr

/-- The epoch a callback captured. -/
def Callback.epoch : Callback → Nat
  | .resume e => e
  | .blink e => e

/-- A one-shot timer scheduled via cx.spawn_in: it fires once after
delay and runs its callback. -/
structure Timer where
  delay : Nat
  callback : Callback
deriving DecidableEq, Repr

/-- Observable effects of one operation: how many times cx.notify ran and
which timers were scheduled. -/
structure Effects where
  notifies : Nat
  timers : List Timer
deriving DecidableEq, Repr

/-- The empty effect: no notification, no timer. -/
def Effects.none : Effects := { notifies := 0, timers := [] }

/-- Constructor body of BlinkManager::new: the initial field values.
The subscriptions it installs are modelled by the focusGained, focusLost
and settingsChanged operations below. -/
def new (blink_interval : Nat) : BlinkManager :=
  { blink_interval
    blink_epoch := 0
    blinking_paused := false
    visible := true }

/-- BlinkManager::show_cursor: if not visible, set visible and notify;
otherwise do nothing. -/
def show_cursor (s : BlinkManager) : BlinkManager × Effects :=
  if !s.visible then
    ({ s with visible := true }, { notifies := 1, timers := [] })
  else
    (s, Effects.none)

/-- BlinkManager::next_blink_epoch: increment blink_epoch and return the
incremented value. -/
def next_blink_epoch (s : BlinkManager) : BlinkManager × Nat :=
  let s := { s with blink_epoch := s.blink_epoch + 1 }
  (s, s.blink_epoch)

/-- BlinkManager::blink_cursors, the decision procedure. If the setting
is enabled and the callback epoch matches the live epoch, the handle is
focused and blinking is not paused: toggle visible, notify, and schedule
a blink timer carrying the incremented epoch. If the setting is disabled:
show_cursor, with no epoch or focus check. -/
def blink_cursors (epoch : Nat) (env : Env) (s : BlinkManager) :
    BlinkManager × Effects :=
  if env.is_enabled then
    if epoch == s.blink_epoch && env.is_focused && !s.blinking_paused then
      let s := { s with visible := !s.visible }
      let (s, epoch) := next_blink_epoch s
      (s, { notifies := 1
            timers := [{ delay := s.blink_interval
                         callback := Callback.blink epoch }] })
    else
      (s, Effects.none)
  else
    show_cursor s

/-- BlinkManager::refresh: run blink_cursors at the current epoch. -/
def refresh (env : Env) (s : BlinkManager) : BlinkManager × Effects :=
  blink_cursors s.blink_epoch env s

/-- BlinkManager::pause_blinking: show the cursor, increment the epoch,
and schedule a resume timer after blink_interval carrying the incremented
epoch. It does not write blinking_paused. -/
def pause_blinking (s : BlinkManager) : BlinkManager × Effects :=
  let (s, eff) := show_cursor s
  let (s, epoch) := next_blink_epoch s
  (s, { eff with
        timers := eff.timers ++
          [{ delay := s.blink_interval, callback := Callback.resume epoch }] })

/-- BlinkManager::resume_cursor_blinking, the resume timer callback: if
the captured epoch equals the live epoch, clear blinking_paused and run
blink_cursors at that epoch; otherwise do nothing. -/
def resume_cursor_blinking (epoch : Nat) (env : Env) (s : BlinkManager) :
    BlinkManager × Effects :=
  if epoch == s.blink_epoch then
    let s := { s with blinking_paused := false }
    blink_cursors epoch env s
  else
    (s, Effects.none)

/-- The on_focus subscription installed in BlinkManager::new: set visible
to false, then refresh. -/
def on_focus (env : Env) (s : BlinkManager) : BlinkManager × Effects :=
  let s := { s with visible := false }
  refresh env s

/-- The on_blur subscription installed in BlinkManager::new: set visible
to false; nothing else. -/
def on_blur (s : BlinkManager) : BlinkManager × Effects :=
  ({ s with visible := false }, Effects.none)

/-- The SettingsStore observer installed in BlinkManager::new: refresh. -/
def on_settings_changed (env : Env) (s : BlinkManager) :
    BlinkManager × Effects :=
  refresh env s

/-- BlinkManager::visible, the accessor: a read of the visible field with
no state change and no effect. -/
def visibleQuery (s : BlinkManager) : Bool × (BlinkManager × Effects) :=
  (s.visible, (s, Effects.none))

/-- A timer firing: the scheduled callback runs against the live state,
reading the environment fresh. -/
def fire (cb : Callback) (env : Env) (s : BlinkManager) :
    BlinkManager × Effects :=
  match cb with
  | .resume epoch => resume_cursor_blinking epoch env s
  | .blink epoch => blink_cursors epoch env s

/-- One operation or event delivered to the manager. Timer firings take
an arbitrary callback, so every trace of the real system (where fired
callbacks were previously scheduled) is covered. -/
inductive Op where
  | refreshOp (env : Env)
  | pauseOp
  | showCursorOp
  | focusGainedOp (env : Env)
  | focusLostOp
  | settingsChangedOp (env : Env)
  | fireOp (cb : Callback) (env : Env)
deriving DecidableEq, Repr

/-- Step function: dispatch one operation. -/
def step (op : Op) (s : BlinkManager) : BlinkManager × Effects :=
  match op with
  | .refreshOp env => refresh env s
  | .pauseOp => pause_blinking s
  | .showCursorOp => show_cursor s
  | .focusGainedOp env => on_focus env s
  | .focusLostOp => on_blur s
  | .settingsChangedOp env => on_settings_changed env s
  | .fireOp cb env => fire cb env s

/-- Run a sequence of operations, discarding effects. -/
def run (ops : List Op) (s : BlinkManager) : BlinkManager :=
  ops.foldl (fun s op => (step op s).1) s

/-- Environment: setting enabled, handle focused. -/
def envEF : Env := { is_enabled := true, is_focused := true }

/-- Environment: setting disabled, handle focused. -/
def envDF : Env := { is_enabled := false, is_focused := true }

/-- Environment: setting disabled, handle unfocused. -/
def envDU : Env := { is_enabled := false, is_focused := false }

/-!
Helper lemmas: closed-form characterizations of the operations.
-/

/-- show_cursor in closed form: the result always has visible true, and a
notification is emitted exactly when the cursor was hidden. -/
theorem show_cursor_eq (s : BlinkManager) :
    show_cursor s =
      ({ s with visible := true },
       { notifies := if s.visible then 0 else 1, timers := [] }) := by
  cases s with
  | mk iv ep bp vis => cases vis <;> simp [show_cursor, Effects.none]

/-- blink_cursors in closed form. -/
theorem blink_cursors_eq (e : Nat) (env : Env) (s : BlinkManager) :
    blink_cursors e env s =
      if env.is_enabled = true then
        if e = s.blink_epoch ∧ env.is_focused = true ∧
            s.blinking_paused = false then
          ({ s with visible := !s.visible, blink_epoch := s.blink_epoch + 1 },
           { notifies := 1
             timers := [{ delay := s.blink_interval
                          callback := Callback.blink (s.blink_epoch + 1) }] })
        else (s, Effects.none)
      else show_cursor s := by
  cases env with
  | mk en fo =>
    cases s with
    | mk iv ep bp vis =>
      by_cases he : e = ep <;> cases en <;> cases fo <;> cases bp <;>
        simp_all [blink_cursors, next_blink_epoch, Effects.none]

/-- Any single call to blink_cursors raises blink_epoch by the number of
timers it schedules. -/
theorem blink_cursors_epoch (e : Nat) (env : Env) (s : BlinkManager) :
    (blink_cursors e env s).1.blink_epoch =
      s.blink_epoch + ((blink_cursors e env s).2.timers).length := by
  rw [blink_cursors_eq]
  split
  · split
    · simp
    · simp [Effects.none]
  · rw [show_cursor_eq]; simp

/-- blink_cursors never writes blinking_paused. -/
theorem blink_cursors_paused (e : Nat) (env : Env) (s : BlinkManager) :
    (blink_cursors e env s).1.blinking_paused = s.blinking_paused := by
  rw [blink_cursors_eq]
  split
  · split
    · simp
    · simp
  · rw [show_cursor_eq]

/-- Each step raises blink_epoch by exactly the number of timers it
schedules. -/
theorem step_epoch (op : Op) (s : BlinkManager) :
    (step op s).1.blink_epoch =
      s.blink_epoch + ((step op s).2.timers).length := by
  cases op with
  | refreshOp env => exact blink_cursors_epoch s.blink_epoch env s
  | pauseOp =>
    cases s with
    | mk iv ep bp vis =>
      cases vis <;>
        simp [step, pause_blinking, show_cursor, next_blink_epoch, Effects.none]
  | showCursorOp =>
    rw [step, show_cursor_eq]; simp
  | focusGainedOp env =>
    simpa [step, on_focus, refresh] using
      blink_cursors_epoch s.blink_epoch env { s with visible := false }
  | focusLostOp => simp [step, on_blur, Effects.none]
  | settingsChangedOp env =>
    exact blink_cursors_epoch s.blink_epoch env s
  | fireOp cb env =>
    cases cb with
    | blink e => exact blink_cursors_epoch e env s
    | resume e =>
      by_cases he : e = s.blink_epoch
      · simpa [step, fire, resume_cursor_blinking, he] using
          blink_cursors_epoch e env { s with blinking_paused := false }
      · simp [step, fire, resume_cursor_blinking, he, Effects.none]

/-- Unfolding run over a cons cell. -/
theorem run_cons (op : Op) (ops : List Op) (s : BlinkManager) :
    run (op :: ops) s = run ops (step op s).1 := rfl

/-- blink_epoch never decreases over any run. -/
theorem run_epoch_le (ops : List Op) (s : BlinkManager) :
    s.blink_epoch ≤ (run ops s).blink_epoch := by
  induction ops generalizing s with
  | nil => exact Nat.le_refl _
  | cons op ops ih =>
    rw [run_cons]
    refine Nat.le_trans ?_ (ih (step op s).1)
    rw [step_epoch op s]
    exact Nat.le_add_right _ _

/-- Once blinking_paused is false, no step sets it to true. -/
theorem step_paused (op : Op) (s : BlinkManager)
    (h : s.blinking_paused = false) :
    (step op s).1.blinking_paused = false := by
  cases op with
  | refreshOp env => rw [step, refresh, blink_cursors_paused]; exact h
  | pauseOp =>
    cases s with
    | mk iv ep bp vis =>
      cases vis <;> simp_all [step, pause_blinking, show_cursor, next_blink_epoch]
  | showCursorOp => rw [step, show_cursor_eq]; exact h
  | focusGainedOp env =>
    rw [step, on_focus, refresh, blink_cursors_paused]; exact h
  | focusLostOp => rw [step, on_blur]; exact h
  | settingsChangedOp env =>
    rw [step, on_settings_changed, refresh, blink_cursors_paused]; exact h
  | fireOp cb env =>
    cases cb with
    | blink e => rw [step, fire, blink_cursors_paused]; exact h
    | resume e =>
      by_cases he : e = s.blink_epoch
      · rw [step, fire, resume_cursor_blinking, if_pos (by simp [he]),
          blink_cursors_paused]
      · simp [step, fire, resume_cursor_blinking, he]; exact h

/-- blinking_paused stays false over any run. -/
theorem run_paused (ops : List Op) (s : BlinkManager)
    (h : s.blinking_paused = false) :
    (run ops s).blinking_paused = false := by
  induction ops generalizing s with
  | nil => exact h
  | cons op ops ih => rw [run_cons]; exact ih _ (step_paused op s h)

/-!
Claim theorems.
-/

/-- C2 counterexample: the claim states pause_blinking sets
blinking_paused to true; starting from the freshly constructed manager,
pause_blinking leaves blinking_paused false (the code never writes the
field in pause_blinking). -/
theorem c2_counterexample :
    ¬ (pause_blinking (new 500)).1.blinking_paused = true := by decide

/-- C2 amended: for every prior state, pause_blinking immediately results
in visible = true, leaves blinking_paused unchanged (it is never set to
true), increments blink_epoch by exactly 1, and schedules exactly one
one-shot resume timer that fires after blink_interval, carrying the
incremented epoch. -/
theorem c2_pause_blinking (s : BlinkManager) :
    (pause_blinking s).1.visible = true ∧
    (pause_blinking s).1.blinking_paused = s.blinking_paused ∧
    (pause_blinking s).1.blink_epoch = s.blink_epoch + 1 ∧
    (pause_blinking s).2.timers =
      [{ delay := s.blink_interval
         callback := Callback.resume (s.blink_epoch + 1) }] := by
  cases s with
  | mk iv ep bp vis =>
    cases vis <;>
      simp [pause_blinking, show_cursor, next_blink_epoch, Effects.none]

/-- C5: blink_epoch starts at 0 at construction, each operation raises it
by exactly the number of timers that operation schedules (so exactly 1
per scheduled timer and 0 otherwise, never reset), and over every
sequence of operations it is non-decreasing. -/
theorem c5_epoch_monotone :
    (∀ iv, (new iv).blink_epoch = 0) ∧
    (∀ op s, (step op s).1.blink_epoch =
      s.blink_epoch + ((step op s).2.timers).length) ∧
    (∀ ops s, s.blink_epoch ≤ (run ops s).blink_epoch) :=
  ⟨fun _ => rfl, step_epoch, run_epoch_le⟩

/-- C8: the focus-lost handler only sets visible to false: it schedules
no timer, emits no notification, and leaves blink_epoch, blinking_paused
and blink_interval unchanged. -/
theorem c8_on_blur_frame (s : BlinkManager) :
    on_blur s = ({ s with visible := false }, Effects.none) ∧
    (on_blur s).1.blink_epoch = s.blink_epoch ∧
    (on_blur s).1.blinking_paused = s.blinking_paused ∧
    (on_blur s).1.blink_interval = s.blink_interval ∧
    (on_blur s).2.notifies = 0 ∧
    (on_blur s).2.timers = [] := by
  simp [on_blur, Effects.none]

/-- C9: show_cursor is idempotent (already visible: no state change and
no notification; hidden: set visible and notify exactly once), and the
visible accessor is a pure read returning the visible field with no state
change and no effect. -/
theorem c9_show_cursor_idempotent (s : BlinkManager) :
    (s.visible = true → show_cursor s = (s, Effects.none)) ∧
    (s.visible = false →
      show_cursor s =
        ({ s with visible := true }, { notifies := 1, timers := [] })) ∧
    visibleQuery s = (s.visible, (s, Effects.none)) := by
  refine ⟨fun h => ?_, fun h => ?_, rfl⟩ <;> simp [show_cursor, h]

/-- C9 witness: on the freshly constructed manager (visible), show_cursor
changes nothing and performs no effect. -/
theorem c9_witness :
    show_cursor (new 500) = (new 500, Effects.none) :=
  (c9_show_cursor_idempotent (new 500)).1 rfl

/-- C10: blinking_paused is false at construction, is preserved false by
every operation (pause_blinking in particular never sets it true), hence
is false in every reachable state; consequently the blinking_paused guard
in the decision procedure never suppresses a toggle: whenever the setting
is enabled, the epoch matches and the handle is focused, blink_cursors
toggles visible. -/
theorem c10_paused_invariant :
    (∀ iv, (new iv).blinking_paused = false) ∧
    (∀ op s, s.blinking_paused = false →
      (step op s).1.blinking_paused = false) ∧
    (∀ ops iv, (run ops (new iv)).blinking_paused = false) ∧
    (∀ s, (pause_blinking s).1.blinking_paused = s.blinking_paused) ∧
    (∀ e env s, env.is_enabled = true → env.is_focused = true →
      e = s.blink_epoch → s.blinking_paused = false →
      (blink_cursors e env s).1.visible = !s.visible) := by
  refine ⟨fun _ => rfl, step_paused, fun ops iv => run_paused ops (new iv) rfl,
    fun s => ?_, fun e env s hen hfo he hp => ?_⟩
  · cases s with
    | mk iv ep bp vis =>
      cases vis <;> simp [pause_blinking, show_cursor, next_blink_epoch]
  · rw [blink_cursors_eq, if_pos hen, if_pos ⟨he, hfo, hp⟩]

/-- C10 witness: after a pause from the initial state, blinking_paused is
still false, and a matching focused enabled blink_cursors call toggles
visible. -/
theorem c10_witness :
    (step Op.pauseOp (new 500)).1.blinking_paused = false ∧
    (blink_cursors 0 envEF (new 500)).1.visible = !(new 500).visible :=
  ⟨c10_paused_invariant.2.1 Op.pauseOp (new 500) rfl,
   c10_paused_invariant.2.2.2.2 0 envEF (new 500) rfl rfl rfl rfl⟩

/-- Reachable state used to refute C1: blink while enabled and focused
(scheduling the blink timer with captured epoch 1), pause (raising the
live epoch to 2, so that timer is now stale), see the setting disabled,
then lose focus (visible becomes false). -/
def c1state : BlinkManager :=
  run [Op.refreshOp envEF, Op.pauseOp, Op.settingsChangedOp envDF,
       Op.focusLostOp] (new 500)

/-- C1 counterexample: the blink timer with captured epoch 1 was really
scheduled along the trace, it is stale in c1state (live epoch 2), the
setting is disabled and visible is false; firing it nevertheless changes
visible and emits a notification, because blink_cursors checks the
enabled setting before any epoch comparison. -/
theorem c1_counterexample :
    { delay := 500, callback := Callback.blink 1 } ∈
      (step (Op.refreshOp envEF) (new 500)).2.timers ∧
    (Callback.blink 1).epoch ≠ c1state.blink_epoch ∧
    c1state.visible = false ∧
    (fire (Callback.blink 1) envDU c1state).1.visible = true ∧
    (fire (Callback.blink 1) envDU c1state).2.notifies = 1 := by decide

/-- C1 amended: a stale callback (captured epoch different from the live
blink_epoch) never changes blink_epoch or blinking_paused and never
schedules a timer; a stale resume callback changes nothing at all (its
epoch comparison comes first); a stale blink callback changes nothing
when the setting is enabled, but when the setting is disabled it runs
show_cursor regardless of its epoch, so it may force visible to true and
notify. -/
theorem c1_stale_callback (cb : Callback) (env : Env) (s : BlinkManager)
    (h : cb.epoch ≠ s.blink_epoch) :
    (fire cb env s).1.blink_epoch = s.blink_epoch ∧
    (fire cb env s).1.blinking_paused = s.blinking_paused ∧
    (fire cb env s).2.timers = [] ∧
    (cb = Callback.resume cb.epoch → fire cb env s = (s, Effects.none)) ∧
    (env.is_enabled = true → fire cb env s = (s, Effects.none)) ∧
    (cb = Callback.blink cb.epoch → env.is_enabled = false →
      fire cb env s = show_cursor s) := by
  cases cb with
  | resume e =>
    have hfe : fire (Callback.resume e) env s = (s, Effects.none) := by
      simp only [Callback.epoch] at h
      simp [fire, resume_cursor_blinking, h]
    rw [hfe]
    exact ⟨rfl, rfl, rfl, fun _ => rfl, fun _ => rfl,
      fun hc => absurd hc (by simp)⟩
  | blink e =>
    simp only [Callback.epoch] at h
    have hfe : fire (Callback.blink e) env s = blink_cursors e env s := rfl
    rw [hfe, blink_cursors_eq]
    cases hen : env.is_enabled with
    | true =>
      simp [hen, h, Effects.none]
    | false =>
      rw [if_neg (by simp [hen]), show_cursor_eq]
      simp [hen, Effects.none]

/-- C1 witness: a stale resume callback (captured epoch 3, live epoch 0)
fired on the fresh manager changes nothing. -/
theorem c1_witness :
    fire (Callback.resume 3) envEF (new 500) = (new 500, Effects.none) :=
  (c1_stale_callback (Callback.resume 3) envEF (new 500)
      (by decide)).2.2.2.1 rfl

/-- C3 refinement definition, modelled from the words of the claim: the
focus-gained handler sets visible to true and then runs the decision
procedure at the current epoch. The code's handler (on_focus) instead
sets visible to false before refreshing. -/
def on_focus_claimed (env : Env) (s : BlinkManager) :
    BlinkManager × Effects :=
  let s := { s with visible := true }
  refresh env s

/-- C3 counterexample: on the fresh manager with the setting enabled and
the handle focused, the handler the claim describes would toggle visible
from true to false and hide the caret, and it disagrees with the code's
handler, which ends with visible true. -/
theorem c3_counterexample :
    (on_focus_claimed envEF (new 500)).1.visible = false ∧
    (on_focus envEF (new 500)).1.visible = true ∧
    on_focus envEF (new 500) ≠ on_focus_claimed envEF (new 500) := by
  decide

/-- C3 amended: on a focus-gained event (the handle focused, and
blinking_paused false as it is in every reachable state), the handler
sets visible to false and then runs the decision procedure at the current
epoch; this ends with visible = true and exactly one notification, so
the caret is shown immediately (toggled on when the setting is enabled,
forced on via show_cursor when disabled), and when the setting is enabled
a fresh blink cycle is scheduled: blink_epoch is incremented and one
blink timer is scheduled after blink_interval. -/
theorem c3_focus_gained (env : Env) (s : BlinkManager)
    (hf : env.is_focused = true) (hp : s.blinking_paused = false) :
    on_focus env s = refresh env { s with visible := false } ∧
    (on_focus env s).1.visible = true ∧
    (on_focus env s).2.notifies = 1 ∧
    (env.is_enabled = true →
      (on_focus env s).1.blink_epoch = s.blink_epoch + 1 ∧
      (on_focus env s).2.timers =
        [{ delay := s.blink_interval
           callback := Callback.blink (s.blink_epoch + 1) }]) ∧
    (env.is_enabled = false → (on_focus env s).2.timers = []) := by
  have hof : on_focus env s =
      blink_cursors s.blink_epoch env { s with visible := false } := rfl
  refine ⟨rfl, ?_⟩
  rw [hof, blink_cursors_eq]
  cases hen : env.is_enabled with
  | true =>
    rw [if_pos rfl, if_pos ⟨rfl, hf, hp⟩]
    simp
  | false =>
    rw [if_neg (by simp), show_cursor_eq]
    simp

/-- C3 witness: focus gained on the fresh manager with the setting
enabled ends visible with one notification, a bumped epoch and one
scheduled blink timer. -/
theorem c3_witness :
    (on_focus envEF (new 500)).1.visible = true ∧
    (on_focus envEF (new 500)).2.notifies = 1 ∧
    (on_focus envEF (new 500)).1.blink_epoch = (new 500).blink_epoch + 1 :=
  ⟨(c3_focus_gained envEF (new 500) rfl rfl).2.1,
   (c3_focus_gained envEF (new 500) rfl rfl).2.2.1,
   ((c3_focus_gained envEF (new 500) rfl rfl).2.2.2.1 rfl).1⟩

/-- Environment: setting enabled, handle unfocused. -/
def envEU : Env := { is_enabled := true, is_focused := false }

/-- resume_cursor_blinking in closed form. -/
theorem resume_eq (e : Nat) (env : Env) (s : BlinkManager) :
    resume_cursor_blinking e env s =
      if e = s.blink_epoch then
        blink_cursors e env { s with blinking_paused := false }
      else (s, Effects.none) := by
  by_cases he : e = s.blink_epoch <;> simp [resume_cursor_blinking, he]

/-- Any timer blink_cursors schedules carries the incremented epoch,
which is the new live epoch. -/
theorem blink_cursors_timer_epoch (e : Nat) (env : Env) (s : BlinkManager)
    (t : Timer) (ht : t ∈ (blink_cursors e env s).2.timers) :
    t.callback.epoch = s.blink_epoch + 1 ∧
    (blink_cursors e env s).1.blink_epoch = s.blink_epoch + 1 := by
  rw [blink_cursors_eq] at ht ⊢
  by_cases hen : env.is_enabled = true
  · rw [if_pos hen] at ht ⊢
    by_cases hg : e = s.blink_epoch ∧ env.is_focused = true ∧
        s.blinking_paused = false
    · rw [if_pos hg] at ht ⊢
      simp only [List.mem_singleton] at ht
      subst ht
      exact ⟨rfl, rfl⟩
    · rw [if_neg hg] at ht
      simp [Effects.none] at ht
  · rw [if_neg hen, show_cursor_eq] at ht
    simp at ht

/-- Any timer a step schedules carries the incremented epoch, which is
the new live epoch of the resulting state. -/
theorem step_timer_epoch (op : Op) (s : BlinkManager) (t : Timer)
    (ht : t ∈ (step op s).2.timers) :
    t.callback.epoch = s.blink_epoch + 1 ∧
    (step op s).1.blink_epoch = s.blink_epoch + 1 := by
  cases op with
  | refreshOp env => exact blink_cursors_timer_epoch s.blink_epoch env s t ht
  | pauseOp =>
    cases s with
    | mk iv ep bp vis =>
      cases vis <;>
        simp_all [step, pause_blinking, show_cursor, next_blink_epoch,
          Callback.epoch, Effects.none]
  | showCursorOp =>
    rw [step, show_cursor_eq] at ht
    simp at ht
  | focusGainedOp env =>
    exact blink_cursors_timer_epoch s.blink_epoch env
      { s with visible := false } t ht
  | focusLostOp =>
    simp [step, on_blur, Effects.none] at ht
  | settingsChangedOp env =>
    exact blink_cursors_timer_epoch s.blink_epoch env s t ht
  | fireOp cb env =>
    cases cb with
    | blink e => exact blink_cursors_timer_epoch e env s t ht
    | resume e =>
      by_cases he : e = s.blink_epoch
      · have hstep : step (Op.fireOp (Callback.resume e) env) s =
            blink_cursors e env { s with blinking_paused := false } := by
          simp [step, fire, resume_cursor_blinking, he]
        rw [hstep] at ht ⊢
        exact blink_cursors_timer_epoch e env
          { s with blinking_paused := false } t ht
      · have hstep : step (Op.fireOp (Callback.resume e) env) s =
            (s, Effects.none) := by
          simp [step, fire, resume_cursor_blinking, he]
        rw [hstep] at ht
        simp [Effects.none] at ht

/-- C4 counterexample: on the fresh manager (live epoch 0) with the
setting enabled and the handle focused, refresh schedules a blink timer
whose callback captured epoch 1, the incremented value, not the claimed
pre-increment epoch 0. -/
theorem c4_counterexample :
    (new 500).blink_epoch = 0 ∧
    (refresh envEF (new 500)).2.timers =
      [{ delay := 500, callback := Callback.blink 1 }] ∧
    (Callback.blink 1).epoch ≠ (new 500).blink_epoch := by decide

/-- C4 amended: every scheduled timer carries the post-increment epoch,
equal to the live blink_epoch right after scheduling (the pre-increment
value plus 1); at fire time the resume callback proceeds exactly when its
captured epoch equals the live blink_epoch, and the blink callback, when
the setting is enabled, proceeds exactly when its captured epoch equals
the live blink_epoch (with the setting disabled it forces the cursor
visible regardless of epoch, per the C1 correction). -/
theorem c4_scheduling_epoch (op : Op) (s : BlinkManager) (t : Timer)
    (e : Nat) (env : Env) (x : BlinkManager)
    (ht : t ∈ (step op s).2.timers) :
    t.callback.epoch = (step op s).1.blink_epoch ∧
    (step op s).1.blink_epoch = s.blink_epoch + 1 ∧
    (e ≠ x.blink_epoch →
      resume_cursor_blinking e env x = (x, Effects.none)) ∧
    (e = x.blink_epoch →
      resume_cursor_blinking e env x =
        blink_cursors e env { x with blinking_paused := false }) ∧
    (env.is_enabled = true → e ≠ x.blink_epoch →
      blink_cursors e env x = (x, Effects.none)) := by
  obtain ⟨h1, h2⟩ := step_timer_epoch op s t ht
  refine ⟨h1.trans h2.symm, h2, fun hne => ?_, fun heq => ?_,
    fun hen hne => ?_⟩
  · rw [resume_eq, if_neg hne]
  · rw [resume_eq, if_pos heq]
  · rw [blink_cursors_eq, if_pos hen, if_neg (fun hcon => hne hcon.1)]

/-- C4 witness: the resume timer pause_blinking schedules from the fresh
manager carries epoch 1, the new live epoch; and a resume callback with a
non-matching epoch is a no-op. -/
theorem c4_witness :
    (Callback.resume 1).epoch = (step Op.pauseOp (new 500)).1.blink_epoch ∧
    resume_cursor_blinking 2 envEF (new 500) = (new 500, Effects.none) :=
  ⟨(c4_scheduling_epoch Op.pauseOp (new 500)
      { delay := 500, callback := Callback.resume 1 } 2 envEF (new 500)
      (by decide)).1,
   (c4_scheduling_epoch Op.pauseOp (new 500)
      { delay := 500, callback := Callback.resume 1 } 2 envEF (new 500)
      (by decide)).2.2.1 (by decide)⟩

/-- C6: whenever the decision procedure runs while the setting predicate
is false it forces visible to true, notifying exactly when the cursor was
hidden, and schedules no timer; moreover, while the predicate is false no
timer firing ever turns visible off (any change sets it to true), and no
timer firing schedules a new timer. -/
theorem c6_disabled_forces_visible (e : Nat) (cb : Callback) (env : Env)
    (s : BlinkManager) (hd : env.is_enabled = false) :
    blink_cursors e env s =
      ({ s with visible := true },
       { notifies := if s.visible then 0 else 1, timers := [] }) ∧
    ((fire cb env s).1.visible = false → s.visible = false) ∧
    (fire cb env s).2.timers = [] := by
  have hbc : ∀ (e2 : Nat) (x : BlinkManager), blink_cursors e2 env x =
      ({ x with visible := true },
       { notifies := if x.visible then 0 else 1, timers := [] }) := by
    intro e2 x
    rw [blink_cursors_eq, if_neg (by simp [hd]), show_cursor_eq]
  refine ⟨hbc e s, ?_, ?_⟩
  · cases cb with
    | blink e2 =>
      have hfi : fire (Callback.blink e2) env s = blink_cursors e2 env s :=
        rfl
      rw [hfi, hbc e2 s]
      intro hv
      simp at hv
    | resume e2 =>
      have hfi : fire (Callback.resume e2) env s =
          resume_cursor_blinking e2 env s := rfl
      rw [hfi, resume_eq]
      by_cases he2 : e2 = s.blink_epoch
      · rw [if_pos he2, hbc e2 { s with blinking_paused := false }]
        intro hv
        simp at hv
      · rw [if_neg he2]
        exact fun hv => hv
  · cases cb with
    | blink e2 =>
      have hfi : fire (Callback.blink e2) env s = blink_cursors e2 env s :=
        rfl
      rw [hfi, hbc e2 s]
    | resume e2 =>
      have hfi : fire (Callback.resume e2) env s =
          resume_cursor_blinking e2 env s := rfl
      rw [hfi, resume_eq]
      by_cases he2 : e2 = s.blink_epoch
      · rw [if_pos he2, hbc e2 { s with blinking_paused := false }]
      · rw [if_neg he2]
        rfl

/-- C6 witness: the decision procedure on the fresh manager with the
setting disabled leaves the cursor shown, with no notification and no
timer, and a blink firing schedules nothing. -/
theorem c6_witness :
    blink_cursors 7 envDU (new 500) =
      ({ new 500 with visible := true },
       { notifies := if (new 500).visible then 0 else 1, timers := [] }) ∧
    (fire (Callback.blink 7) envDU (new 500)).2.timers = [] :=
  ⟨(c6_disabled_forces_visible 7 (Callback.blink 7) envDU (new 500) rfl).1,
   (c6_disabled_forces_visible 7 (Callback.blink 7) envDU (new 500) rfl).2.2⟩

/-- C7: a timer callback firing while the focus handle is unfocused never
performs the blink toggle and never reschedules: it schedules no timer,
leaves blink_epoch unchanged, never turns the cursor off, and when the
setting is enabled it changes no state and emits no effect at all. The
spec distinguishes the toggle (the visible alternation of the enabled
branch) from forcing the cursor visible: with the setting disabled a
firing may still force visible to true, which is the disabled-setting
behavior of C6, not a blink toggle. -/
theorem c7_unfocused_fire (cb : Callback) (env : Env) (s : BlinkManager)
    (hf : env.is_focused = false) :
    (fire cb env s).2.timers = [] ∧
    (fire cb env s).1.blink_epoch = s.blink_epoch ∧
    ((fire cb env s).1.visible = false → s.visible = false) ∧
    (env.is_enabled = true →
      (fire cb env s).1.visible = s.visible ∧
      (fire cb env s).2 = Effects.none) := by
  have hbc : ∀ (e2 : Nat) (x : BlinkManager), blink_cursors e2 env x =
      if env.is_enabled = true then (x, Effects.none)
      else ({ x with visible := true },
            { notifies := if x.visible then 0 else 1, timers := [] }) := by
    intro e2 x
    by_cases hen : env.is_enabled = true
    · rw [blink_cursors_eq, if_pos hen, if_neg (by simp [hf]), if_pos hen]
    · rw [blink_cursors_eq, if_neg hen, show_cursor_eq, if_neg hen]
  cases cb with
  | blink e2 =>
    have hfi : fire (Callback.blink e2) env s = blink_cursors e2 env s := rfl
    rw [hfi, hbc e2 s]
    by_cases hen : env.is_enabled = true
    · rw [if_pos hen]
      exact ⟨rfl, rfl, fun hv => hv, fun _ => ⟨rfl, rfl⟩⟩
    · rw [if_neg hen]
      refine ⟨rfl, rfl, fun hv => ?_, fun hen2 => absurd hen2 hen⟩
      simp at hv
  | resume e2 =>
    have hfi : fire (Callback.resume e2) env s =
        resume_cursor_blinking e2 env s := rfl
    rw [hfi, resume_eq]
    by_cases he2 : e2 = s.blink_epoch
    · rw [if_pos he2, hbc e2 { s with blinking_paused := false }]
      by_cases hen : env.is_enabled = true
      · rw [if_pos hen]
        exact ⟨rfl, rfl, fun hv => hv, fun _ => ⟨rfl, rfl⟩⟩
      · rw [if_neg hen]
        refine ⟨rfl, rfl, fun hv => ?_, fun hen2 => absurd hen2 hen⟩
        simp at hv
    · rw [if_neg he2]
      exact ⟨rfl, rfl, fun hv => hv, fun _ => ⟨rfl, rfl⟩⟩

/-- C7 witness: a blink timer firing on the fresh manager while enabled
but unfocused schedules nothing and leaves visible unchanged. -/
theorem c7_witness :
    (fire (Callback.blink 1) envEU (new 500)).2.timers = [] ∧
    (fire (Callback.blink 1) envEU (new 500)).1.visible =
      (new 500).visible :=
  ⟨(c7_unfocused_fire (Callback.blink 1) envEU (new 500) rfl).1,
   ((c7_unfocused_fire (Callback.blink 1) envEU (new 500) rfl).2.2.2 rfl).1⟩
